import Mathlib

/-!
# go-universal/validator: the localized validation facade

A shallow embedding of `validator.go`: the facade `i18nValidator`, its
message resolution `translate`, the two aggregation loops
`parseStructErrors` and `parseVariableErrors`, the five validation entry
points and `AddTranslation`.

External collaborators are kept as data:

* the rule engine (`*validator.Validate`) is a record of result functions,
  its `error` result is `EngineErr`;
* the catalog backend (`i18n.Translator`) is a record holding the
  registrations made so far and its lookup function, which may read them;
* a validated value (`any`) carries a payload and its two optional
  capabilities (`Translatable`, `TranslatableField`).

Go strings are taken as Lean strings (valid UTF-8), Go `int` as `Int`, with
its 64-bit range where a float is converted to it.
-/

set_option autoImplicit false

namespace Validator

/-! ## External data -/

/-- A Go `error` value that is not the engine's structured failure list. -/
structure GoError where
  msg : String
deriving DecidableEq, Repr

/-- One element of the engine's `validator.ValidationErrors`: the accessors
of `validator.FieldError` that the facade reads. -/
structure FieldError where
  Field : String
  StructField : String
  Tag : String
  Param : String
  Error : String
deriving DecidableEq, Repr

/-- The `error` returned by the delegate engine: `nil`, a value of dynamic
type `validator.ValidationErrors`, or any other error. -/
inductive EngineErr where
  | nil
  | validationErrors (errs : List FieldError)
  | other (err : GoError)
deriving DecidableEq, Repr

/-- The dynamic values stored under `"param"`: the raw string, the parsed
integer or the parsed float (`F` stands for Go's `float64`). -/
inductive GoAny (F : Type) where
  | str (s : String)
  | int (i : Int)
  | float (x : F)
deriving DecidableEq, Repr

/-- The map literal `map[string]any{"field": name, "param": param}`. -/
structure PluralArgs (F : Type) where
  field : String
  param : GoAny F
deriving DecidableEq, Repr

/-- One `AddMessage(locale, key, message, options...)` registration. -/
structure Message (O : Type) where
  locale : String
  key : String
  message : String
  options : List O
deriving DecidableEq, Repr

/-- The catalog backend `i18n.Translator`: the registrations received so
far, in order, and the lookup `Plural(locale, key, count, args)`, which is
any function of those registrations and its arguments. -/
structure Translator (F O : Type) where
  messages : List (Message O)
  Plural : List (Message O) → String → String → Int → PluralArgs F → String

/-- The call `t.AddMessage(locale, key, message, options...)`. -/
def Translator.AddMessage {F O : Type} (t : Translator F O)
    (locale key message : String) (options : List O) : Translator F O :=
  { t with messages := t.messages ++ [⟨locale, key, message, options⟩] }

/-- The call `t.Plural(locale, key, count, args)`. -/
def Translator.plural {F O : Type} (t : Translator F O)
    (locale key : String) (count : Int) (args : PluralArgs F) : String :=
  t.Plural t.messages locale key count args

/-- A validated value of type `any`: a payload together with the methods it
has. `TranslateError` is present exactly when the value implements
`Translatable`, `TranslateTitle` exactly when it implements
`TranslatableField`. -/
structure Value (α : Type) where
  data : α
  TranslateError : Option (String → String → String → String)
  TranslateTitle : Option (String → String → String)

/-- The delegate engine `*validator.Validate`: what each of its validation
entry points returns. -/
structure Validate (α : Type) where
  Struct : Value α → EngineErr
  StructExcept : Value α → List String → EngineErr
  StructPartial : Value α → List String → EngineErr
  Var : Value α → String → EngineErr
  VarWithValue : Value α → Value α → String → EngineErr

/-- The number a Go `float64` denotes: a finite value `m * 2 ^ e`, or a
value that is not a finite number (NaN and the two infinities). -/
inductive FloatVal where
  | finite (m e : Int)
  | notFinite
deriving DecidableEq, Repr

/-- The fraction of a float discarded (truncation towards zero); nothing for
a value that is not a finite number. -/
def FloatVal.truncate : FloatVal → Option Int
  | .finite m e => if 0 ≤ e then some (m * 2 ^ e.toNat) else some (Int.tdiv m (2 ^ (-e).toNat))
  | .notFinite => none

/-- The smallest value of Go's `int` (64 bits). -/
def minInt : Int := -9223372036854775808

/-- The largest value of Go's `int` (64 bits). -/
def maxInt : Int := 9223372036854775807

/-- An integer reduced to the range of Go's `int` (two's complement). -/
def wrapInt (z : Int) : Int := (z + 9223372036854775808) % 18446744073709551616 - 9223372036854775808

/-- The helper `parseNumeric` is declared outside `validator.go`; it is
taken as a parameter. It returns a pair of pointers `(i, f)`, here a pair of
options. `value` is the number a float denotes. `outOfRange` is the result
the platform gives to a float to `int` conversion whose value `int` cannot
represent (Go leaves it implementation-dependent). The conversion `int(*i)`
of the integer reading is the identity. -/
structure Numeric (F : Type) where
  parseNumeric : String → Option Int × Option F
  value : F → FloatVal
  outOfRange : F → Int

/-- Go's conversion `int(x)` of a `float64`: the fraction is discarded
(truncation towards zero) when the result fits `int`; otherwise the
conversion succeeds with the platform's result, some value of `int`. -/
def Numeric.toInt {F : Type} (num : Numeric F) (x : F) : Int :=
  match (num.value x).truncate with
  | some z => if minInt ≤ z ∧ z ≤ maxInt then z else wrapInt (num.outOfRange x)
  | none => wrapInt (num.outOfRange x)

/-! ## The validation error model -/

/-- Modelled from the spec: a field-error record `{field, rule, message}` of
`ValidationError`, which is declared outside `validator.go`. -/
structure FieldErr where
  field : String
  rule : String
  message : String
deriving DecidableEq, Repr

/-- Modelled from the spec: the accumulator `ValidationError`, declared
outside `validator.go`: an ordered sequence of field errors, insertion order
preserved, and an optional internal error. -/
structure ValidationError where
  fieldErrors : List FieldErr
  internalError : Option GoError
deriving DecidableEq, Repr

/-- Modelled from the spec: `NewEmptyError()`, the value with no errors. -/
def NewEmptyError : ValidationError := ⟨[], none⟩

/-- Modelled from the spec: `NewError(err)` wraps a non-validation error as
the internal error. -/
def NewError (err : GoError) : ValidationError := ⟨[], some err⟩

/-- Modelled from the spec: `AddError(field, rule, message)` appends a
field-error record, without deduplication. -/
def ValidationError.AddError (e : ValidationError) (field rule message : String) :
    ValidationError :=
  { e with fieldErrors := e.fieldErrors ++ [⟨field, rule, message⟩] }

/-- Modelled from the spec: `HasValidationErrors()` is true iff the
field-error sequence is non-empty. -/
def ValidationError.HasValidationErrors (e : ValidationError) : Bool :=
  !e.fieldErrors.isEmpty

/-- Modelled from the spec: `HasInternalError()` is true iff an internal
error is set. -/
def ValidationError.HasInternalError (e : ValidationError) : Bool :=
  e.internalError.isSome

/-- Modelled from the spec: `InternalError()` returns the stored internal
error or none. -/
def ValidationError.InternalError (e : ValidationError) : Option GoError :=
  e.internalError

/-! ## The facade -/

/-- The struct `i18nValidator`. The field `pfx` is the Go field `prefix`;
`translator = none` is the nil translator. -/
structure i18nValidator (α F O : Type) where
  pfx : String
  translator : Option (Translator F O)
  validator : Validate α

/-- Go's `unicode.IsSpace`. -/
def isSpace (r : Char) : Bool :=
  let n := r.toNat
  if n ≤ 0xFF then
    n == 0x09 || n == 0x0A || n == 0x0B || n == 0x0C || n == 0x0D || n == 0x20
      || n == 0x85 || n == 0xA0
  else
    n == 0x1680 || (0x2000 ≤ n && n ≤ 0x200A) || n == 0x2028 || n == 0x2029
      || n == 0x202F || n == 0x205F || n == 0x3000

/-- Go's `strings.TrimSpace`: all leading and trailing white space removed. -/
def TrimSpace (s : String) : String :=
  ⟨(s.data.dropWhile isSpace).rdropWhile isSpace⟩

/-- The method `AddTranslation`; the facade after the call is returned (the
catalog is reached through its `translator` field). -/
def AddTranslation {α F O : Type} (v : i18nValidator α F O)
    (locale rule message : String) (options : List O) : i18nValidator α F O :=
  let rule := TrimSpace rule
  if rule = "" then v
  else
    match v.translator with
    | none => v
    | some t =>
      if v.pfx = "" then
        { v with translator := some (t.AddMessage locale rule message options) }
      else
        { v with
          translator := some (t.AddMessage locale (v.pfx ++ "." ++ rule) message options) }

/-- The method `translate`. -/
def translate {α F O : Type} (v : i18nValidator α F O)
    (locale name rule field : String) (param : GoAny F) (value : Value α)
    (count : Int) : String :=
  match v.translator with
  | none => ""
  | some t =>
    let viaCatalog : String :=
      let rule := if v.pfx ≠ "" then v.pfx ++ "." ++ rule else rule
      let name :=
        match value.TranslateTitle with
        | some title => if title locale field ≠ "" then title locale field else name
        | none => name
      t.plural locale rule count ⟨name, param⟩
    match value.TranslateError with
    | some te => if te locale rule field ≠ "" then te locale rule field else viaCatalog
    | none => viaCatalog

/-- The method `parseStructErrors`. -/
def parseStructErrors {α F O : Type} (num : Numeric F) (v : i18nValidator α F O)
    (locale : String) (value : Value α) (err : EngineErr) : ValidationError :=
  match err with
  | .nil => NewEmptyError
  | .other e => NewError e
  | .validationErrors errs =>
    errs.foldl
      (fun res field =>
        let pc : GoAny F × Int :=
          match num.parseNumeric field.Param with
          | (some i, _) => (.int i, i)
          | (none, some f) => (.float f, num.toInt f)
          | (none, none) => (.str field.Param, 0)
        match v.translator with
        | none => res.AddError field.Field field.Tag field.Error
        | some _ =>
          res.AddError field.Field field.Tag
            (translate v locale field.Field field.Tag field.StructField pc.1 value pc.2))
      NewEmptyError

/-- The method `parseVariableErrors`. -/
def parseVariableErrors {α F O : Type} (num : Numeric F) (v : i18nValidator α F O)
    (locale name : String) (value : Value α) (err : EngineErr) : ValidationError :=
  match err with
  | .nil => NewEmptyError
  | .other e => NewError e
  | .validationErrors errs =>
    errs.foldl
      (fun res field =>
        let pc : GoAny F × Int :=
          match num.parseNumeric field.Param with
          | (some i, _) => (.int i, i)
          | (none, some f) => (.float f, num.toInt f)
          | (none, none) => (.str field.Param, 0)
        match v.translator with
        | none => res.AddError field.Field field.Tag field.Error
        | some _ =>
          res.AddError name field.Tag
            (translate v locale name field.Tag name pc.1 value pc.2))
      NewEmptyError

/-- The method `Struct`. -/
def Struct {α F O : Type} (num : Numeric F) (v : i18nValidator α F O)
    (locale : String) (value : Value α) : ValidationError :=
  parseStructErrors num v locale value (v.validator.Struct value)

/-- The method `StructExpect`. -/
def StructExpect {α F O : Type} (num : Numeric F) (v : i18nValidator α F O)
    (locale : String) (value : Value α) (fields : List String) : ValidationError :=
  parseStructErrors num v locale value (v.validator.StructExcept value fields)

/-- The method `StructPartial`. -/
def StructPartial {α F O : Type} (num : Numeric F) (v : i18nValidator α F O)
    (locale : String) (value : Value α) (fields : List String) : ValidationError :=
  parseStructErrors num v locale value (v.validator.StructPartial value fields)

/-- The method `Var`. -/
def Var {α F O : Type} (num : Numeric F) (v : i18nValidator α F O)
    (locale name : String) (value : Value α) (rules : String) : ValidationError :=
  parseVariableErrors num v locale name value (v.validator.Var value rules)

/-- The method `VarWithValue`. -/
def VarWithValue {α F O : Type} (num : Numeric F) (v : i18nValidator α F O)
    (locale name : String) (value other : Value α) (rules : String) : ValidationError :=
  parseVariableErrors num v locale name value (v.validator.VarWithValue value other rules)

/-! ## Specification-side readings and sample data -/

/-- The five validation calls of the facade with their arguments. -/
inductive Call (α : Type) where
  | Struct (locale : String) (value : Value α)
  | StructExpect (locale : String) (value : Value α) (fields : List String)
  | StructPartial (locale : String) (value : Value α) (fields : List String)
  | Var (locale name : String) (value : Value α) (rules : String)
  | VarWithValue (locale name : String) (value other : Value α) (rules : String)

/-- What the delegate engine returns for a call. -/
def Call.engineResult {α F O : Type} (v : i18nValidator α F O) : Call α → EngineErr
  | .Struct _ value => v.validator.Struct value
  | .StructExpect _ value fields => v.validator.StructExcept value fields
  | .StructPartial _ value fields => v.validator.StructPartial value fields
  | .Var _ _ value rules => v.validator.Var value rules
  | .VarWithValue _ _ value other rules => v.validator.VarWithValue value other rules

/-- The `ValidationError` the facade returns for a call. -/
def Call.run {α F O : Type} (num : Numeric F) (v : i18nValidator α F O) :
    Call α → ValidationError
  | .Struct locale value => Validator.Struct num v locale value
  | .StructExpect locale value fields => Validator.StructExpect num v locale value fields
  | .StructPartial locale value fields => Validator.StructPartial num v locale value fields
  | .Var locale name value rules => Validator.Var num v locale name value rules
  | .VarWithValue locale name value other rules =>
    Validator.VarWithValue num v locale name value other rules

/-- The validated value of a call. -/
def Call.value {α : Type} : Call α → Value α
  | .Struct _ value => value
  | .StructExpect _ value _ => value
  | .StructPartial _ value _ => value
  | .Var _ _ value _ => value
  | .VarWithValue _ _ value _ _ => value

/-- The locale of a call. -/
def Call.locale {α : Type} : Call α → String
  | .Struct locale _ => locale
  | .StructExpect locale _ _ => locale
  | .StructPartial locale _ _ => locale
  | .Var locale _ _ _ => locale
  | .VarWithValue locale _ _ _ _ => locale

/-- The name a call hands to `translate` for a failure: the failure's field
name for the struct calls, the caller's name for the variable calls. -/
def Call.nameOf {α : Type} (c : Call α) (f : FieldError) : String :=
  match c with
  | .Struct _ _ => f.Field
  | .StructExpect _ _ _ => f.Field
  | .StructPartial _ _ _ => f.Field
  | .Var _ name _ _ => name
  | .VarWithValue _ name _ _ _ => name

/-- The struct field a call hands to `translate` for a failure: the
failure's struct field for the struct calls, the caller's name for the
variable calls. -/
def Call.fieldOf {α : Type} (c : Call α) (f : FieldError) : String :=
  match c with
  | .Struct _ _ => f.StructField
  | .StructExpect _ _ _ => f.StructField
  | .StructPartial _ _ _ => f.StructField
  | .Var _ name _ _ => name
  | .VarWithValue _ name _ _ _ => name

/-- The `param` of the specification: the integer reading of `p` when there
is one, otherwise the float reading when there is one, otherwise `p`. -/
def specParam {F : Type} (num : Numeric F) (p : String) : GoAny F :=
  match (num.parseNumeric p).1 with
  | some i => .int i
  | none =>
    match (num.parseNumeric p).2 with
    | some x => .float x
    | none => .str p

/-- The `count` of the specification: the integer reading of `p` when there
is one, otherwise the float reading converted by `int(x)` when there is
one, otherwise zero. -/
def specCount {F : Type} (num : Numeric F) (p : String) : Int :=
  match (num.parseNumeric p).1 with
  | some i => i
  | none =>
    match (num.parseNumeric p).2 with
    | some x => num.toInt x
    | none => 0

/-- A sample numeric reader, its floats being the numbers they denote:
`"18"` reads as the integer 18, `"2.5"` as the float 2.5 and the twenty-one
digit string `"100000000000000000000"`, too large for an integer, as the
float 1e20; anything else reads as neither. A conversion out of range gives
the smallest `int`. -/
def sampleNumeric : Numeric FloatVal :=
  ⟨fun p =>
      if p = "18" then (some 18, none)
      else if p = "2.5" then (none, some (.finite 5 (-1)))
      else if p = "100000000000000000000" then (none, some (.finite 95367431640625 20))
      else (none, none),
    fun x => x,
    fun _ => minInt⟩

/-- A sample catalog: no registration yet; the lookup answers with the key,
the field name, the kind of param and the count it was given. -/
def sampleTranslator : Translator FloatVal String :=
  ⟨[], fun _ _ key count args =>
      key ++ ":" ++ args.field
        ++ (match args.param with
            | .int _ => ":int"
            | .float _ => ":float"
            | .str _ => ":str")
        ++ (if count = 0 then ":0" else if count = 2 then ":2"
            else if count = 18 then ":18" else ":n")⟩

/-- A sample catalog that holds a message for the key `required` only. -/
def requiredOnlyTranslator : Translator FloatVal String :=
  ⟨[], fun _ _ key _ _ => if key = "required" then "is required" else ""⟩

/-- A sample catalog whose lookup tells which count it was given. -/
def probeTranslator : Translator FloatVal String :=
  ⟨[], fun _ _ _ count _ =>
      if count = 100000000000000000000 then "count is 1e20"
      else if count = -9223372036854775808 then "count is the smallest int"
      else "count is something else"⟩

/-- Three sample failures as the engine reports them. -/
def sampleFailures : List FieldError :=
  [⟨"Name", "Name", "required", "", "raw required"⟩,
   ⟨"Age", "Age", "min", "18", "raw min"⟩,
   ⟨"Score", "Score", "gt", "2.5", "raw gt"⟩]

/-- A sample engine: every struct call reports `sampleFailures`, every
variable call reports one failure of rule `eqfield` with an empty field
name. -/
def sampleEngine : Validate Unit :=
  ⟨fun _ => .validationErrors sampleFailures,
   fun _ _ => .validationErrors sampleFailures,
   fun _ _ => .validationErrors sampleFailures,
   fun _ _ => .validationErrors [⟨"", "", "eqfield", "", "raw eqfield"⟩],
   fun _ _ _ => .validationErrors [⟨"", "", "eqfield", "", "raw eqfield"⟩]⟩

/-- A sample engine that fails with a non-validation error. -/
def brokenEngine : Validate Unit :=
  ⟨fun _ => .other ⟨"invalid"⟩, fun _ _ => .other ⟨"invalid"⟩,
   fun _ _ => .other ⟨"invalid"⟩, fun _ _ => .other ⟨"invalid"⟩,
   fun _ _ _ => .other ⟨"invalid"⟩⟩

/-- A sample value with no capability. -/
def plainValue : Value Unit := ⟨(), none, none⟩

/-- A sample value implementing `Translatable`: it words the `required`
rule itself and nothing else. -/
def wordedValue : Value Unit :=
  ⟨(), some (fun _ rule _ => if rule = "required" then "is needed" else ""), none⟩

/-- A sample facade with a translator and the namespace `validation`. -/
def sampleFacade : i18nValidator Unit FloatVal String :=
  ⟨"validation", some sampleTranslator, sampleEngine⟩

/-- A sample facade without translator. -/
def bareFacade : i18nValidator Unit FloatVal String :=
  ⟨"", none, sampleEngine⟩

/-- A sample facade whose catalog knows the rule `required` only. -/
def requiredOnlyFacade : i18nValidator Unit FloatVal String :=
  ⟨"", some requiredOnlyTranslator, sampleEngine⟩

/-- A sample facade whose catalog tells the count. -/
def probeFacade : i18nValidator Unit FloatVal String :=
  ⟨"", some probeTranslator, sampleEngine⟩

/-! ## Shared lemmas -/

theorem foldl_AddError (a b c : FieldError → String) (errs : List FieldError)
    (init : ValidationError) :
    errs.foldl (fun res f => res.AddError (a f) (b f) (c f)) init
      = ⟨init.fieldErrors ++ errs.map (fun f => ⟨a f, b f, c f⟩), init.internalError⟩ := by
  induction errs generalizing init with
  | nil => simp
  | cons f fs ih =>
    rw [List.foldl_cons, ih]
    simp [ValidationError.AddError]

theorem specParam_specCount_eq {F : Type} (num : Numeric F) (p : String) :
    (match num.parseNumeric p with
      | (some i, _) => ((.int i, i) : GoAny F × Int)
      | (none, some f) => (.float f, num.toInt f)
      | (none, none) => (.str p, 0)) = (specParam num p, specCount num p) := by
  unfold specParam specCount
  rcases h : num.parseNumeric p with ⟨_ | i, _ | x⟩ <;> simp

theorem parseStructErrors_translated {α F O : Type} (num : Numeric F)
    (v : i18nValidator α F O) (t : Translator F O) (ht : v.translator = some t)
    (locale : String) (value : Value α) (errs : List FieldError) :
    parseStructErrors num v locale value (.validationErrors errs)
      = ⟨errs.map (fun f => ⟨f.Field, f.Tag,
            translate v locale f.Field f.Tag f.StructField (specParam num f.Param) value
              (specCount num f.Param)⟩), none⟩ := by
  simp only [parseStructErrors, ht, specParam_specCount_eq]
  rw [foldl_AddError]
  rfl

theorem parseVariableErrors_translated {α F O : Type} (num : Numeric F)
    (v : i18nValidator α F O) (t : Translator F O) (ht : v.translator = some t)
    (locale name : String) (value : Value α) (errs : List FieldError) :
    parseVariableErrors num v locale name value (.validationErrors errs)
      = ⟨errs.map (fun f => ⟨name, f.Tag,
            translate v locale name f.Tag name (specParam num f.Param) value
              (specCount num f.Param)⟩), none⟩ := by
  simp only [parseVariableErrors, ht, specParam_specCount_eq]
  rw [foldl_AddError]
  rfl

theorem parseStructErrors_raw {α F O : Type} (num : Numeric F)
    (v : i18nValidator α F O) (ht : v.translator = none)
    (locale : String) (value : Value α) (errs : List FieldError) :
    parseStructErrors num v locale value (.validationErrors errs)
      = ⟨errs.map (fun f => ⟨f.Field, f.Tag, f.Error⟩), none⟩ := by
  simp only [parseStructErrors, ht]
  rw [foldl_AddError]
  rfl

theorem parseVariableErrors_raw {α F O : Type} (num : Numeric F)
    (v : i18nValidator α F O) (ht : v.translator = none)
    (locale name : String) (value : Value α) (errs : List FieldError) :
    parseVariableErrors num v locale name value (.validationErrors errs)
      = ⟨errs.map (fun f => ⟨f.Field, f.Tag, f.Error⟩), none⟩ := by
  simp only [parseVariableErrors, ht]
  rw [foldl_AddError]
  rfl

/-! ## Message resolution -/

/-- C1: with a translator configured, a value that implements `Translatable`
and answers `TranslateError(locale, rule, field)` with a non-empty string
makes `translate` return exactly that string, for every namespace, catalog,
name, param and count; the rule is handed over without the namespace. Hence
the field error recorded by `Struct`, `StructExpect` and `StructPartial` for
such a failure carries that string as its message. -/
theorem translate_override_wins {α F O : Type} (num : Numeric F)
    (v : i18nValidator α F O) (t : Translator F O) (ht : v.translator = some t)
    (value : Value α) (te : String → String → String → String)
    (hte : value.TranslateError = some te) :
    (∀ (locale name rule field : String) (param : GoAny F) (count : Int),
        te locale rule field ≠ "" →
        translate v locale name rule field param value count = te locale rule field) ∧
    (∀ (locale : String) (errs : List FieldError),
        v.validator.Struct value = .validationErrors errs →
        ∀ (i : Nat) (f : FieldError), errs[i]? = some f →
          te locale f.Tag f.StructField ≠ "" →
          (Struct num v locale value).fieldErrors[i]?
            = some ⟨f.Field, f.Tag, te locale f.Tag f.StructField⟩) ∧
    (∀ (locale : String) (fields : List String) (errs : List FieldError),
        v.validator.StructExcept value fields = .validationErrors errs →
        ∀ (i : Nat) (f : FieldError), errs[i]? = some f →
          te locale f.Tag f.StructField ≠ "" →
          (StructExpect num v locale value fields).fieldErrors[i]?
            = some ⟨f.Field, f.Tag, te locale f.Tag f.StructField⟩) ∧
    (∀ (locale : String) (fields : List String) (errs : List FieldError),
        v.validator.StructPartial value fields = .validationErrors errs →
        ∀ (i : Nat) (f : FieldError), errs[i]? = some f →
          te locale f.Tag f.StructField ≠ "" →
          (StructPartial num v locale value fields).fieldErrors[i]?
            = some ⟨f.Field, f.Tag, te locale f.Tag f.StructField⟩) := by
  have key : ∀ (locale name rule field : String) (param : GoAny F) (count : Int),
      te locale rule field ≠ "" →
      translate v locale name rule field param value count = te locale rule field := by
    intro locale name rule field param count h
    simp only [translate, ht, hte]
    rw [if_pos h]
  have rec : ∀ (locale : String) (errs : List FieldError) (i : Nat) (f : FieldError),
      errs[i]? = some f → te locale f.Tag f.StructField ≠ "" →
      (parseStructErrors num v locale value (.validationErrors errs)).fieldErrors[i]?
        = some ⟨f.Field, f.Tag, te locale f.Tag f.StructField⟩ := by
    intro locale errs i f hf h
    rw [parseStructErrors_translated num v t ht]
    simp only [List.getElem?_map, hf, Option.map_some']
    rw [key _ _ _ _ _ _ h]
  refine ⟨key, ?_, ?_, ?_⟩
  · intro locale errs he i f hf h
    simp only [Struct, he]
    exact rec locale errs i f hf h
  · intro locale fields errs he i f hf h
    simp only [StructExpect, he]
    exact rec locale errs i f hf h
  · intro locale fields errs he i f hf h
    simp only [StructPartial, he]
    exact rec locale errs i f hf h

/-- The sample value words `required` itself: under the namespace
`validation` its wording is returned and recorded. -/
theorem translate_override_wins_witness :
    translate sampleFacade "en" "Name" "required" "Name" (.str "") wordedValue 0 = "is needed" ∧
    (Struct sampleNumeric sampleFacade "en" wordedValue).fieldErrors[0]?
      = some ⟨"Name", "required", "is needed"⟩ :=
  ⟨(translate_override_wins sampleNumeric sampleFacade sampleTranslator rfl wordedValue
      (fun _ rule _ => if rule = "required" then "is needed" else "") rfl).1
      "en" "Name" "required" "Name" (.str "") 0 (by decide),
   (translate_override_wins sampleNumeric sampleFacade sampleTranslator rfl wordedValue
      (fun _ rule _ => if rule = "required" then "is needed" else "") rfl).2.1
      "en" sampleFailures rfl 0 ⟨"Name", "Name", "required", "", "raw required"⟩ rfl
      (by decide)⟩

theorem translate_no_override {α F O : Type}
    (v : i18nValidator α F O) (t : Translator F O) (ht : v.translator = some t)
    (locale name rule field : String) (param : GoAny F) (value : Value α) (count : Int)
    (hno : ∀ te, value.TranslateError = some te → te locale rule field = "") :
    translate v locale name rule field param value count
      = t.Plural t.messages locale
          (if v.pfx = "" then rule else v.pfx ++ "." ++ rule) count
          ⟨(match value.TranslateTitle with
            | some title => if title locale field = "" then name else title locale field
            | none => name), param⟩ := by
  have hcat : (if v.pfx ≠ "" then v.pfx ++ "." ++ rule else rule)
      = (if v.pfx = "" then rule else v.pfx ++ "." ++ rule) := by
    by_cases h : v.pfx = "" <;> simp [h]
  have hname : (match value.TranslateTitle with
        | some title => if title locale field ≠ "" then title locale field else name
        | none => name)
      = (match value.TranslateTitle with
        | some title => if title locale field = "" then name else title locale field
        | none => name) := by
    cases value.TranslateTitle with
    | none => rfl
    | some title => by_cases h : title locale field = "" <;> simp [h]
  simp only [translate, ht, Translator.plural, hcat, hname]
  cases hte : value.TranslateError with
  | none => rfl
  | some te => simp [hno te hte]

/-- C2: with a translator configured and a value that gives no error
override (no `Translatable`, or an empty answer), `translate` is the
catalog lookup `Plural(locale, key, count, {field: n, param: param})` with
`key = prefix + "." + rule` for a non-empty prefix and `key = rule`
otherwise, and `n` the non-empty title of a `TranslatableField` value and
`name` otherwise. -/
theorem translate_catalog_lookup {α F O : Type}
    (v : i18nValidator α F O) (t : Translator F O) (ht : v.translator = some t)
    (locale name rule field : String) (param : GoAny F) (value : Value α) (count : Int)
    (hno : ∀ te, value.TranslateError = some te → te locale rule field = "") :
    translate v locale name rule field param value count
      = t.Plural t.messages locale
          (if v.pfx = "" then rule else v.pfx ++ "." ++ rule) count
          ⟨(match value.TranslateTitle with
            | some title => if title locale field = "" then name else title locale field
            | none => name), param⟩ :=
  translate_no_override v t ht locale name rule field param value count hno

/-- A value without capabilities under the namespace `validation`: the
sample catalog is asked for `validation.min` with the caller's name, param
and count. -/
theorem translate_catalog_lookup_witness :
    translate sampleFacade "en" "Age" "min" "Age" (.int 18) plainValue 18
      = "validation.min:Age:int:18" :=
  translate_catalog_lookup sampleFacade sampleTranslator rfl "en" "Age" "min" "Age"
    (.int 18) plainValue 18 (fun _ h => by cases h)

/-! ## Aggregation -/

theorem parseStructErrors_fields {α F O : Type} (num : Numeric F)
    (v : i18nValidator α F O) (locale : String) (value : Value α)
    (errs : List FieldError) :
    (parseStructErrors num v locale value (.validationErrors errs)).fieldErrors.map
        (fun e => (e.field, e.rule)) = errs.map (fun f => (f.Field, f.Tag)) := by
  cases ht : v.translator with
  | none => simp [parseStructErrors_raw num v ht]
  | some t => simp [parseStructErrors_translated num v t ht]

theorem hasValidationErrors_iff (res : ValidationError) (errs : List FieldError)
    (h : res.fieldErrors.map (fun e => (e.field, e.rule)) = errs.map (fun f => (f.Field, f.Tag))) :
    res.HasValidationErrors = true ↔ 0 < errs.length := by
  have hl : res.fieldErrors.length = errs.length := by
    simpa using congrArg List.length h
  rw [← hl]
  cases hfe : res.fieldErrors <;> simp [ValidationError.HasValidationErrors, hfe]

/-- C3: when the engine reports a structured list of `n` field failures,
with or without a translator, the result of `Struct`, `StructExpect` and
`StructPartial` holds exactly `n` field errors in the engine's order, the
i-th with the field and the tag of the i-th failure; so
`HasValidationErrors()` holds iff `n > 0`. -/
theorem struct_calls_report_every_failure {α F O : Type} (num : Numeric F)
    (v : i18nValidator α F O) (locale : String) (value : Value α)
    (fields : List String) (errs : List FieldError) :
    (v.validator.Struct value = .validationErrors errs →
      (Struct num v locale value).fieldErrors.length = errs.length ∧
      (Struct num v locale value).fieldErrors.map (fun e => (e.field, e.rule))
        = errs.map (fun f => (f.Field, f.Tag)) ∧
      ((Struct num v locale value).HasValidationErrors = true ↔ 0 < errs.length)) ∧
    (v.validator.StructExcept value fields = .validationErrors errs →
      (StructExpect num v locale value fields).fieldErrors.length = errs.length ∧
      (StructExpect num v locale value fields).fieldErrors.map (fun e => (e.field, e.rule))
        = errs.map (fun f => (f.Field, f.Tag)) ∧
      ((StructExpect num v locale value fields).HasValidationErrors = true
        ↔ 0 < errs.length)) ∧
    (v.validator.StructPartial value fields = .validationErrors errs →
      (StructPartial num v locale value fields).fieldErrors.length = errs.length ∧
      (StructPartial num v locale value fields).fieldErrors.map (fun e => (e.field, e.rule))
        = errs.map (fun f => (f.Field, f.Tag)) ∧
      ((StructPartial num v locale value fields).HasValidationErrors = true
        ↔ 0 < errs.length)) := by
  have h := parseStructErrors_fields num v locale value errs
  have hl : (parseStructErrors num v locale value (.validationErrors errs)).fieldErrors.length
      = errs.length := by
    simpa using congrArg List.length h
  have hv := hasValidationErrors_iff _ errs h
  refine ⟨fun he => ?_, fun he => ?_, fun he => ?_⟩
  · simp only [Struct, he]
    exact ⟨hl, h, hv⟩
  · simp only [StructExpect, he]
    exact ⟨hl, h, hv⟩
  · simp only [StructPartial, he]
    exact ⟨hl, h, hv⟩

/-- The sample engine reports three failures; all are returned, in order. -/
theorem struct_calls_report_every_failure_witness :
    (Struct sampleNumeric sampleFacade "en" plainValue).fieldErrors.length = 3 ∧
    (Struct sampleNumeric sampleFacade "en" plainValue).fieldErrors.map
        (fun e => (e.field, e.rule)) = [("Name", "required"), ("Age", "min"), ("Score", "gt")] ∧
    ((Struct sampleNumeric sampleFacade "en" plainValue).HasValidationErrors = true
      ↔ 0 < sampleFailures.length) :=
  (struct_calls_report_every_failure sampleNumeric sampleFacade "en" plainValue []
    sampleFailures).1 rfl

/-- C4: for each of the five validation calls the result has an internal
error iff the engine returned an error that is not a structured failure
list; then `InternalError()` is that error and there are no field errors.
When the engine returns no error the result is the empty value, with
neither kind of error; when it returns a failure list there is no internal
error. -/
theorem internal_error_iff_engine_failure {α F O : Type} (num : Numeric F)
    (v : i18nValidator α F O) (c : Call α) :
    ((c.run num v).HasInternalError = true ↔ ∃ e, c.engineResult v = .other e) ∧
    (∀ e, c.engineResult v = .other e →
      (c.run num v).InternalError = some e ∧ (c.run num v).fieldErrors = []) ∧
    (c.engineResult v = .nil →
      c.run num v = NewEmptyError ∧ (c.run num v).HasValidationErrors = false ∧
      (c.run num v).HasInternalError = false) ∧
    (∀ errs, c.engineResult v = .validationErrors errs →
      (c.run num v).HasInternalError = false) := by
  have hs : ∀ (locale : String) (value : Value α) (err : EngineErr),
      ((parseStructErrors num v locale value err).HasInternalError = true
          ↔ ∃ e, err = .other e) ∧
      (∀ e, err = .other e →
        (parseStructErrors num v locale value err).InternalError = some e ∧
        (parseStructErrors num v locale value err).fieldErrors = []) ∧
      (err = .nil →
        parseStructErrors num v locale value err = NewEmptyError ∧
        (parseStructErrors num v locale value err).HasValidationErrors = false ∧
        (parseStructErrors num v locale value err).HasInternalError = false) ∧
      (∀ errs, err = .validationErrors errs →
        (parseStructErrors num v locale value err).HasInternalError = false) := by
    intro locale value err
    cases err with
    | nil =>
      simp [parseStructErrors, NewEmptyError, ValidationError.HasInternalError,
        ValidationError.HasValidationErrors]
    | other e =>
      simp [parseStructErrors, NewError, ValidationError.HasInternalError,
        ValidationError.InternalError]
    | validationErrors errs =>
      cases ht : v.translator with
      | none =>
        simp [parseStructErrors_raw num v ht, ValidationError.HasInternalError]
      | some t =>
        simp [parseStructErrors_translated num v t ht, ValidationError.HasInternalError]
  have hv : ∀ (locale name : String) (value : Value α) (err : EngineErr),
      ((parseVariableErrors num v locale name value err).HasInternalError = true
          ↔ ∃ e, err = .other e) ∧
      (∀ e, err = .other e →
        (parseVariableErrors num v locale name value err).InternalError = some e ∧
        (parseVariableErrors num v locale name value err).fieldErrors = []) ∧
      (err = .nil →
        parseVariableErrors num v locale name value err = NewEmptyError ∧
        (parseVariableErrors num v locale name value err).HasValidationErrors = false ∧
        (parseVariableErrors num v locale name value err).HasInternalError = false) ∧
      (∀ errs, err = .validationErrors errs →
        (parseVariableErrors num v locale name value err).HasInternalError = false) := by
    intro locale name value err
    cases err with
    | nil =>
      simp [parseVariableErrors, NewEmptyError, ValidationError.HasInternalError,
        ValidationError.HasValidationErrors]
    | other e =>
      simp [parseVariableErrors, NewError, ValidationError.HasInternalError,
        ValidationError.InternalError]
    | validationErrors errs =>
      cases ht : v.translator with
      | none =>
        simp [parseVariableErrors_raw num v ht, ValidationError.HasInternalError]
      | some t =>
        simp [parseVariableErrors_translated num v t ht, ValidationError.HasInternalError]
  cases c with
  | Struct locale value => exact hs locale value _
  | StructExpect locale value fields => exact hs locale value _
  | StructPartial locale value fields => exact hs locale value _
  | Var locale name value rules => exact hv locale name value _
  | VarWithValue locale name value other rules => exact hv locale name value _

/-- A facade over the failing sample engine: `Var` returns the engine's
error as internal error and no field error. -/
theorem internal_error_iff_engine_failure_witness :
    (Var sampleNumeric (⟨"", some sampleTranslator, brokenEngine⟩ : i18nValidator Unit FloatVal String)
        "en" "my_field" plainValue "required").InternalError = some ⟨"invalid"⟩ ∧
    (Var sampleNumeric (⟨"", some sampleTranslator, brokenEngine⟩ : i18nValidator Unit FloatVal String)
        "en" "my_field" plainValue "required").fieldErrors = [] :=
  (internal_error_iff_engine_failure sampleNumeric
    (⟨"", some sampleTranslator, brokenEngine⟩ : i18nValidator Unit FloatVal String)
    (.Var "en" "my_field" plainValue "required")).2.1 ⟨"invalid"⟩ rfl

theorem call_run_raw {α F O : Type} (num : Numeric F) (v : i18nValidator α F O)
    (ht : v.translator = none) (c : Call α) (errs : List FieldError)
    (he : c.engineResult v = .validationErrors errs) :
    c.run num v = ⟨errs.map (fun f => ⟨f.Field, f.Tag, f.Error⟩), none⟩ := by
  cases c with
  | Struct locale value =>
    simp only [Call.engineResult] at he
    simp only [Call.run, Struct, he, parseStructErrors_raw num v ht]
  | StructExpect locale value fields =>
    simp only [Call.engineResult] at he
    simp only [Call.run, StructExpect, he, parseStructErrors_raw num v ht]
  | StructPartial locale value fields =>
    simp only [Call.engineResult] at he
    simp only [Call.run, StructPartial, he, parseStructErrors_raw num v ht]
  | Var locale name value rules =>
    simp only [Call.engineResult] at he
    simp only [Call.run, Var, he, parseVariableErrors_raw num v ht]
  | VarWithValue locale name value other rules =>
    simp only [Call.engineResult] at he
    simp only [Call.run, VarWithValue, he, parseVariableErrors_raw num v ht]

theorem call_run_translated {α F O : Type} (num : Numeric F) (v : i18nValidator α F O)
    (t : Translator F O) (ht : v.translator = some t) (c : Call α) (errs : List FieldError)
    (he : c.engineResult v = .validationErrors errs) :
    c.run num v = ⟨errs.map (fun f => ⟨c.nameOf f, f.Tag,
        translate v c.locale (c.nameOf f) f.Tag (c.fieldOf f) (specParam num f.Param) c.value
          (specCount num f.Param)⟩), none⟩ := by
  cases c with
  | Struct locale value =>
    simp only [Call.engineResult] at he
    simp only [Call.run, Struct, he, parseStructErrors_translated num v t ht]
    rfl
  | StructExpect locale value fields =>
    simp only [Call.engineResult] at he
    simp only [Call.run, StructExpect, he, parseStructErrors_translated num v t ht]
    rfl
  | StructPartial locale value fields =>
    simp only [Call.engineResult] at he
    simp only [Call.run, StructPartial, he, parseStructErrors_translated num v t ht]
    rfl
  | Var locale name value rules =>
    simp only [Call.engineResult] at he
    simp only [Call.run, Var, he, parseVariableErrors_translated num v t ht]
    rfl
  | VarWithValue locale name value other rules =>
    simp only [Call.engineResult] at he
    simp only [Call.run, VarWithValue, he, parseVariableErrors_translated num v t ht]
    rfl

/-- On every platform `int(x)` is a value of `int`: a float whose truncation
lies outside the range of `int` is never converted to that truncation. -/
theorem toInt_in_range {F : Type} (num : Numeric F) (x : F) :
    minInt ≤ num.toInt x ∧ num.toInt x ≤ maxInt := by
  have hw : ∀ z : Int, minInt ≤ wrapInt z ∧ wrapInt z ≤ maxInt := by
    intro z
    unfold wrapInt minInt maxInt
    omega
  unfold Numeric.toInt
  split
  · split
    · assumption
    · exact hw _
  · exact hw _

theorem toInt_of_truncate {F : Type} (num : Numeric F) (x : F) (z : Int)
    (hz : (num.value x).truncate = some z) (hlo : minInt ≤ z) (hhi : z ≤ maxInt) :
    num.toInt x = z := by
  simp [Numeric.toInt, hz, hlo, hhi]

/-- C5 (as stated, refuted): the sample reader reads the digit string
`100000000000000000000` as the float 1e20, whose truncation is the integer
1e20; the count handed on by `parseStructErrors` and `parseVariableErrors`
is the platform's out-of-range result, not that truncation. -/
theorem float_count_is_not_truncation_out_of_range :
    sampleNumeric.parseNumeric "100000000000000000000"
      = (none, some (.finite 95367431640625 20)) ∧
    (FloatVal.finite 95367431640625 20).truncate = some 100000000000000000000 ∧
    sampleNumeric.toInt (.finite 95367431640625 20) ≠ 100000000000000000000 ∧
    parseStructErrors sampleNumeric probeFacade "en" plainValue
        (.validationErrors [⟨"Limit", "Limit", "max", "100000000000000000000", "raw max"⟩])
      = ⟨[⟨"Limit", "max", "count is the smallest int"⟩], none⟩ ∧
    parseVariableErrors sampleNumeric probeFacade "en" "limit" plainValue
        (.validationErrors [⟨"", "", "max", "100000000000000000000", "raw max"⟩])
      = ⟨[⟨"limit", "max", "count is the smallest int"⟩], none⟩ := by
  refine ⟨rfl, by decide, by decide, by decide, by decide⟩

/-- C5 (amended): with a translator configured, both `parseStructErrors` and
`parseVariableErrors` hand to `translate`, for a failure with parameter
string `p`, the same param and count: the integer reading `i` of `p` as both
when there is one (whatever the float reading); otherwise, when there is a
float reading `x`, param `x` and count `int(x)`, which is `x` truncated
towards zero whenever `x` is finite and the truncation fits Go's `int`;
otherwise the raw string `p` and 0. -/
theorem param_count_derivation {α F O : Type} (num : Numeric F)
    (v : i18nValidator α F O) (t : Translator F O) (ht : v.translator = some t)
    (locale name : String) (value : Value α) (errs : List FieldError) :
    parseStructErrors num v locale value (.validationErrors errs)
      = ⟨errs.map (fun f => ⟨f.Field, f.Tag,
            translate v locale f.Field f.Tag f.StructField (specParam num f.Param) value
              (specCount num f.Param)⟩), none⟩ ∧
    parseVariableErrors num v locale name value (.validationErrors errs)
      = ⟨errs.map (fun f => ⟨name, f.Tag,
            translate v locale name f.Tag name (specParam num f.Param) value
              (specCount num f.Param)⟩), none⟩ ∧
    (∀ (p : String) (i : Int), (num.parseNumeric p).1 = some i →
      specParam num p = .int i ∧ specCount num p = i) ∧
    (∀ (p : String) (x : F), num.parseNumeric p = (none, some x) →
      specParam num p = .float x ∧ specCount num p = num.toInt x ∧
      ∀ z : Int, (num.value x).truncate = some z → minInt ≤ z → z ≤ maxInt →
        specCount num p = z) ∧
    (∀ (p : String), num.parseNumeric p = (none, none) →
      specParam num p = .str p ∧ specCount num p = 0) := by
  refine ⟨parseStructErrors_translated num v t ht locale value errs,
    parseVariableErrors_translated num v t ht locale name value errs, ?_, ?_, ?_⟩
  · intro p i h
    simp [specParam, specCount, h]
  · intro p x h
    have hc : specCount num p = num.toInt x := by simp [specCount, h]
    refine ⟨by simp [specParam, h], hc, ?_⟩
    intro z hz hlo hhi
    rw [hc, toInt_of_truncate num x z hz hlo hhi]
  · intro p h
    simp [specParam, specCount, h]

/-- The three sample failures have an empty, an integer and a float
parameter: the catalog is handed a string with count 0, the integer with
count 18 and the float 2.5 with its truncation 2 as count. -/
theorem param_count_derivation_witness :
    parseStructErrors sampleNumeric sampleFacade "en" plainValue
        (.validationErrors sampleFailures)
      = ⟨[⟨"Name", "required", "validation.required:Name:str:0"⟩,
          ⟨"Age", "min", "validation.min:Age:int:18"⟩,
          ⟨"Score", "gt", "validation.gt:Score:float:2"⟩], none⟩ ∧
    specCount sampleNumeric "2.5" = 2 :=
  ⟨(param_count_derivation sampleNumeric sampleFacade sampleTranslator rfl "en" "my_field"
      plainValue sampleFailures).1,
   ((param_count_derivation sampleNumeric sampleFacade sampleTranslator rfl "en" "my_field"
      plainValue sampleFailures).2.2.2.1 "2.5" (.finite 5 (-1)) rfl).2.2 2 rfl
      (by decide) (by decide)⟩

/-- C6 (the code at a failing input): without translator `Var` records the
engine's field name, here the empty string, not the caller's name
`my_field`; with a translator the caller's name is recorded. -/
theorem var_without_translator_drops_name :
    (Var sampleNumeric bareFacade "en" "my_field" plainValue "eqfield").fieldErrors
      = [⟨"", "eqfield", "raw eqfield"⟩] ∧
    (Var sampleNumeric sampleFacade "en" "my_field" plainValue "eqfield").fieldErrors.map
      (fun e => e.field) = ["my_field"] := by
  constructor <;> rfl

/-- C7: without translator `translate` returns the empty string for every
input, also for a value with an error override, and every field error
recorded by the five validation calls carries the engine's own error text
of its failure. -/
theorem no_translator_raw_messages {α F O : Type} (num : Numeric F)
    (v : i18nValidator α F O) (ht : v.translator = none) :
    (∀ (locale name rule field : String) (param : GoAny F) (value : Value α) (count : Int),
      translate v locale name rule field param value count = "") ∧
    (∀ (c : Call α) (errs : List FieldError), c.engineResult v = .validationErrors errs →
      (c.run num v).fieldErrors.map (fun e => e.message) = errs.map (fun f => f.Error)) := by
  constructor
  · intro locale name rule field param value count
    simp [translate, ht]
  · intro c errs he
    rw [call_run_raw num v ht c errs he, List.map_map]
    rfl

/-- The facade without translator: nothing is translated, even for the
value that words `required` itself, and the raw texts are recorded. -/
theorem no_translator_raw_messages_witness :
    translate bareFacade "en" "Name" "required" "Name" (.str "") wordedValue 0 = "" ∧
    (Struct sampleNumeric bareFacade "en" wordedValue).fieldErrors.map (fun e => e.message)
      = ["raw required", "raw min", "raw gt"] :=
  ⟨(no_translator_raw_messages sampleNumeric bareFacade rfl).1
      "en" "Name" "required" "Name" (.str "") wordedValue 0,
   (no_translator_raw_messages sampleNumeric bareFacade rfl).2
      (.Struct "en" wordedValue) sampleFailures rfl⟩

/-- C8 (as stated, refuted): the facade without translator, on a failure
list, records the engine's texts, which are not empty. -/
theorem no_translator_message_not_empty :
    bareFacade.translator = none ∧
    bareFacade.validator.Struct plainValue = .validationErrors sampleFailures ∧
    (Struct sampleNumeric bareFacade "en" plainValue).fieldErrors
      = [⟨"Name", "required", "raw required"⟩, ⟨"Age", "min", "raw min"⟩,
         ⟨"Score", "gt", "raw gt"⟩] ∧
    ¬ ∀ e ∈ (Struct sampleNumeric bareFacade "en" plainValue).fieldErrors, e.message = "" := by
  refine ⟨rfl, rfl, rfl, ?_⟩
  intro h
  have h1 := h ⟨"Name", "required", "raw required"⟩ (List.mem_cons_self _ _)
  exact absurd h1 (by decide)

/-- C8 (amended): for every validation call whose engine result is a list
of field failures, one field error per failure is recorded and no internal
error is set; without translator the message recorded is the engine's own
error text; with a translator, a failure for which the value gives no error
override and the catalog lookup of that failure returns the empty string is
recorded with the empty string as its message. -/
theorem translation_failure_is_recorded {α F O : Type} (num : Numeric F)
    (v : i18nValidator α F O) (c : Call α) (errs : List FieldError)
    (he : c.engineResult v = .validationErrors errs) :
    (c.run num v).fieldErrors.length = errs.length ∧
    (c.run num v).HasInternalError = false ∧
    (v.translator = none →
      (c.run num v).fieldErrors.map (fun e => e.message) = errs.map (fun f => f.Error)) ∧
    (∀ t, v.translator = some t →
      ∀ (i : Nat) (f : FieldError), errs[i]? = some f →
      (∀ te, c.value.TranslateError = some te → te c.locale f.Tag (c.fieldOf f) = "") →
      t.Plural t.messages c.locale
          (if v.pfx = "" then f.Tag else v.pfx ++ "." ++ f.Tag) (specCount num f.Param)
          ⟨(match c.value.TranslateTitle with
            | some title =>
              if title c.locale (c.fieldOf f) = "" then c.nameOf f
              else title c.locale (c.fieldOf f)
            | none => c.nameOf f), specParam num f.Param⟩ = "" →
      (c.run num v).fieldErrors[i]? = some ⟨c.nameOf f, f.Tag, ""⟩) := by
  refine ⟨?_, ?_, ?_, ?_⟩
  · cases ht : v.translator with
    | none => rw [call_run_raw num v ht c errs he, List.length_map]
    | some t => rw [call_run_translated num v t ht c errs he, List.length_map]
  · cases ht : v.translator with
    | none => rw [call_run_raw num v ht c errs he]; rfl
    | some t => rw [call_run_translated num v t ht c errs he]; rfl
  · intro ht
    rw [call_run_raw num v ht c errs he, List.map_map]
    rfl
  · intro t ht i f hf hE hP
    rw [call_run_translated num v t ht c errs he]
    simp only [List.getElem?_map, hf, Option.map_some']
    rw [translate_no_override v t ht c.locale (c.nameOf f) f.Tag (c.fieldOf f) _ c.value _ hE,
      hP]

/-- The facade whose catalog knows `required` only: three failures give
three field errors and no internal error; the failure of `min`, which
nothing resolves, is recorded with an empty message next to the resolved
one. -/
theorem translation_failure_is_recorded_witness :
    (Struct sampleNumeric requiredOnlyFacade "en" plainValue).fieldErrors.length = 3 ∧
    (Struct sampleNumeric requiredOnlyFacade "en" plainValue).HasInternalError = false ∧
    (Struct sampleNumeric requiredOnlyFacade "en" plainValue).fieldErrors[1]?
      = some ⟨"Age", "min", ""⟩ ∧
    (Struct sampleNumeric requiredOnlyFacade "en" plainValue).fieldErrors.map
      (fun e => e.message) = ["is required", "", ""] :=
  ⟨(translation_failure_is_recorded sampleNumeric requiredOnlyFacade (.Struct "en" plainValue)
      sampleFailures rfl).1,
   (translation_failure_is_recorded sampleNumeric requiredOnlyFacade (.Struct "en" plainValue)
      sampleFailures rfl).2.1,
   (translation_failure_is_recorded sampleNumeric requiredOnlyFacade (.Struct "en" plainValue)
      sampleFailures rfl).2.2.2 requiredOnlyTranslator rfl 1 ⟨"Age", "Age", "min", "18", "raw min"⟩
      rfl (fun _ h => by cases h) rfl,
   rfl⟩

/-! ## Registration -/

theorem TrimSpace_eq_self (r : String)
    (hhead : ∀ c, r.data.head? = some c → isSpace c = false)
    (hlast : ∀ c, r.data.getLast? = some c → isSpace c = false) :
    TrimSpace r = r := by
  have h1 : r.data.dropWhile isSpace = r.data := by
    cases hd : r.data with
    | nil => rfl
    | cons c cs =>
      have := hhead c (by simp [hd])
      simp [List.dropWhile, this]
  have h2 : r.data.rdropWhile isSpace = r.data := by
    rw [List.rdropWhile_eq_self_iff]
    intro hl
    have := hlast (r.data.getLast hl) (List.getLast?_eq_getLast _ hl)
    simp [this]
  unfold TrimSpace
  rw [h1, h2]

theorem AddTranslation_registers_once_aux {α F O : Type} (v : i18nValidator α F O)
    (locale rule message : String) (options : List O) (t : Translator F O)
    (hne : TrimSpace rule ≠ "") (ht : v.translator = some t) :
    AddTranslation v locale rule message options
      = ⟨v.pfx,
          some ⟨t.messages ++
              [⟨locale,
                if v.pfx = "" then TrimSpace rule else v.pfx ++ "." ++ TrimSpace rule,
                message, options⟩],
            t.Plural⟩,
          v.validator⟩ := by
  unfold AddTranslation
  simp only [hne, ht, if_false, Translator.AddMessage]
  by_cases hp : v.pfx = "" <;> simp [hp]

/-- C9: `AddTranslation` leaves the facade, and with it the catalog,
unchanged when the rule is blank after trimming white space or no
translator is configured; otherwise the catalog receives exactly one more
registration, for the given locale, message and options, under the trimmed
rule when the prefix is empty and under `prefix + "." +` the trimmed rule
when it is not, and nothing else changes. -/
theorem AddTranslation_registers_once {α F O : Type} (v : i18nValidator α F O)
    (locale rule message : String) (options : List O) :
    (TrimSpace rule = "" ∨ v.translator = none →
      AddTranslation v locale rule message options = v) ∧
    (∀ t, TrimSpace rule ≠ "" → v.translator = some t →
      AddTranslation v locale rule message options
        = ⟨v.pfx,
            some ⟨t.messages ++
                [⟨locale,
                  if v.pfx = "" then TrimSpace rule else v.pfx ++ "." ++ TrimSpace rule,
                  message, options⟩],
              t.Plural⟩,
            v.validator⟩) := by
  constructor
  · intro h
    unfold AddTranslation
    rcases h with h | h
    · simp [h]
    · simp only [h]
      split <;> rfl
  · intro t hne ht
    exact AddTranslation_registers_once_aux v locale rule message options t hne ht

/-- Registering ` is_valid ` under the namespace `validation` adds the one
key `validation.is_valid`; a blank rule changes nothing. -/
theorem AddTranslation_registers_once_witness :
    AddTranslation sampleFacade "en" "  " "must be valid" [] = sampleFacade ∧
    AddTranslation sampleFacade "en" " is_valid " "must be valid" ["one"]
      = ⟨"validation",
          some ⟨[⟨"en", "validation.is_valid", "must be valid", ["one"]⟩],
            sampleTranslator.Plural⟩,
          sampleEngine⟩ :=
  ⟨(AddTranslation_registers_once sampleFacade "en" "  " "must be valid" []).1
      (Or.inl (by decide)),
   (AddTranslation_registers_once sampleFacade "en" " is_valid " "must be valid" ["one"]).2
      sampleTranslator (by decide) rfl⟩

/-- C10: with a translator configured, for a non-blank rule `r` without
leading or trailing white space, `AddTranslation` registers its message
under the very key that `translate` hands to the catalog lookup for rule
`r` (for a value without error override): `r` for an empty prefix and
`prefix + "." + r` otherwise. -/
theorem registration_key_is_lookup_key {α F O : Type} (v : i18nValidator α F O)
    (t : Translator F O) (ht : v.translator = some t) (r : String) (hne : r ≠ "")
    (hhead : ∀ c, r.data.head? = some c → isSpace c = false)
    (hlast : ∀ c, r.data.getLast? = some c → isSpace c = false)
    (locale message : String) (options : List O) :
    (AddTranslation v locale r message options).translator
      = some ⟨t.messages ++
          [⟨locale, if v.pfx = "" then r else v.pfx ++ "." ++ r, message, options⟩],
          t.Plural⟩ ∧
    (∀ (loc name field : String) (param : GoAny F) (value : Value α) (count : Int),
      (∀ te, value.TranslateError = some te → te loc r field = "") →
      translate (AddTranslation v locale r message options) loc name r field param value count
        = t.Plural
            (t.messages ++
              [⟨locale, if v.pfx = "" then r else v.pfx ++ "." ++ r, message, options⟩])
            loc (if v.pfx = "" then r else v.pfx ++ "." ++ r) count
            ⟨(match value.TranslateTitle with
              | some title => if title loc field = "" then name else title loc field
              | none => name), param⟩) := by
  have htrim := TrimSpace_eq_self r hhead hlast
  have hadd := (AddTranslation_registers_once_aux v locale r message options t
    (by rw [htrim]; exact hne) ht)
  rw [htrim] at hadd
  constructor
  · rw [hadd]
  · intro loc name field param value count hno
    rw [translate_no_override (AddTranslation v locale r message options) _
      (by rw [hadd]) loc name r field param value count hno]
    rw [hadd]

/-- Registering `is_valid` under the namespace `validation`: the message is
stored under `validation.is_valid` and a failure of `is_valid` is looked up
under that key. -/
theorem registration_key_is_lookup_key_witness :
    (AddTranslation sampleFacade "en" "is_valid" "must be valid" ["one"]).translator
      = some ⟨[⟨"en", "validation.is_valid", "must be valid", ["one"]⟩],
          sampleTranslator.Plural⟩ ∧
    translate (AddTranslation sampleFacade "en" "is_valid" "must be valid" ["one"])
        "en" "Field" "is_valid" "Field" (.str "") plainValue 0
      = "validation.is_valid:Field:str:0" :=
  ⟨(registration_key_is_lookup_key sampleFacade sampleTranslator rfl "is_valid" (by decide)
      (fun c h => by cases h; rfl) (fun c h => by cases h; rfl)
      "en" "must be valid" ["one"]).1,
   (registration_key_is_lookup_key sampleFacade sampleTranslator rfl "is_valid" (by decide)
      (fun c h => by cases h; rfl) (fun c h => by cases h; rfl)
      "en" "must be valid" ["one"]).2 "en" "Field" "Field" (.str "") plainValue 0
      (fun _ h => by cases h)⟩

end Validator
